import Mathlib

/-!
Verification of the ethkey recoverable-signature module (`src/signature.rs`).

The module defines a 65-byte `Signature` type (`r : [u8;32]`, `s : [u8;32]`,
`v : u8`, `repr(C)`, converted to and from `[u8; 65]` by `mem::transmute`) and
two operations, `sign` and `verify`, that call into the external secp256k1
capability.  The capability itself is out of scope for the repository (it is a
trusted black box), so it is embedded as a structure of the functions the code
calls; `sign` and `verify` are embedded faithfully over an arbitrary such
capability, with each Rust `try!` expanded to the corresponding match on the
fallible result.

Bytes are modelled as `Nat` (all byte values the code manipulates are copied
unchanged; the single arithmetic cast, `rec_id.to_i32() as u8`, is modelled
explicitly as truncation modulo 256).
-/

namespace Ethkey

/-- A byte value. -/
abbrev Byte := Nat

/-- A fixed-size byte array `[u8; n]`. -/
abbrev Bytes (n : Nat) := Fin n → Byte

/-- `Secret`: 32 raw bytes (a borrowed scalar, constructed elsewhere). -/
abbrev Secret := Bytes 32

/-- `Public`: 64 raw bytes, untagged uncompressed coordinates. -/
abbrev Public := Bytes 64

/-- Modelled from the spec: the error enumeration of the secp256k1 capability
(`secp256k1::Error`), which is external to the repository.  The spec requires
the capability to expose a distinguishable "signature did not verify" outcome
(`IncorrectSignature`) separate from all other error conditions, and the error
taxonomy of §7: malformed digest, invalid recovery id, invalid scalar,
invalid public key, and other internal failures. -/
inductive SecpError where
  | IncorrectSignature
  | InvalidMessage
  | InvalidPublicKey
  | InvalidSignature
  | InvalidSecretKey
  | InvalidRecoveryId
  | InvalidNonce
deriving DecidableEq

/-- Modelled from the spec: the library's own `Error` type is declared outside
`src/` (only `Error::from(SecpError)` is visible in `signature.rs`).  Per §7
every capability failure is "passed through with its original classification
preserved", so `Error` is embedded as a wrapper that keeps the capability's
error value intact. -/
inductive Error where
  | Secp (e : SecpError)
deriving DecidableEq

/-- The `From<SecpError> for Error` conversion applied by `try!`. -/
def Error.fromSecp (e : SecpError) : Error := Error.Secp e

/-- The `try!` macro: unwrap an `Ok`, or return early converting the error via
`From` (here `Error.fromSecp`).  `sign` and `verify` below expand each `try!`
into the corresponding match. -/
def tryE {α : Type} : Except SecpError α → Except Error α
  | .ok a => .ok a
  | .error e => .error (Error.fromSecp e)

/-- Modelled from the spec: the capability's `RecoveryId` — a small integer
identifying which candidate public key the signature recovers to.  Its valid
range is 0..=3 (§3 invariant: "`v` is in range 0..=3 when produced by `sign`";
§4.3: ids outside the capability's valid range are rejected). -/
abbrev RecoveryId := Fin 4

/-- Modelled from the spec: `RecoveryId::from_i32`, the capability's fallible
recovery-id constructor: accepts exactly 0..=3, rejecting everything else with
the distinct invalid-recovery-id error of the §7 taxonomy. -/
def RecoveryId.from_i32 (i : Int) : Except SecpError RecoveryId :=
  if h : 0 ≤ i ∧ i ≤ 3 then .ok ⟨i.toNat, by omega⟩
  else .error SecpError.InvalidRecoveryId

/-- `RecoveryId::to_i32`. -/
def RecoveryId.to_i32 (r : RecoveryId) : Int := r.val

/-- The Rust `as u8` cast applied to an `i32` value: truncation modulo 256. -/
def i32_as_u8 (i : Int) : Byte := (i % 256).toNat

/-- `#[repr(C)] pub struct Signature { r: [u8;32], s: [u8;32], v: u8 }`. -/
structure Signature where
  r : Bytes 32
  s : Bytes 32
  v : Byte

/-- `Default for Signature`: the all-zero signature. -/
def Signature.default : Signature :=
  { r := fun _ => 0, s := fun _ => 0, v := 0 }

/-- `Into<[u8; 65]> for Signature`: `mem::transmute` of the `repr(C)` struct,
whose layout is `r` at offsets 0..32, `s` at 32..64, `v` at 64 (no padding:
all fields have alignment 1 and the sizes sum to 65). -/
def Signature.toBytes (sig : Signature) : Bytes 65 := fun i =>
  if h : i.val < 32 then sig.r ⟨i.val, h⟩
  else if h2 : i.val < 64 then sig.s ⟨i.val - 32, by omega⟩
  else sig.v

/-- `From<[u8; 65]> for Signature`: `mem::transmute` of the flat array into
the same `repr(C)` layout. -/
def Signature.fromBytes (b : Bytes 65) : Signature where
  r := fun i => b ⟨i.val, by have := i.isLt; omega⟩
  s := fun i => b ⟨i.val + 32, by have := i.isLt; omega⟩
  v := b ⟨64, by omega⟩

/-- `Deref for Signature`: the borrowed `[u8; 65]` view, again a transmute of
the same storage, hence byte-for-byte the `Into` conversion. -/
def Signature.deref (sig : Signature) : Bytes 65 := sig.toBytes

/-- The slice expression `&signature[0..64]` (through the `Deref` view). -/
def rsBytes (sig : Signature) : Bytes 64 := fun i =>
  sig.deref ⟨i.val, by have := i.isLt; omega⟩

/-- The index expression `signature[64]` (through the `Deref` view). -/
def byte64 (sig : Signature) : Byte := sig.deref ⟨64, by omega⟩

/-- The elliptic-curve capability (the secp256k1 context and the library
functions `signature.rs` calls on it), specified only at its interface
boundary: abstract types for messages, recoverable/standard signatures and
parsed public keys, and the operations consumed per §6.  `SecretKey` is 32 raw
bytes (`signature.rs` obtains it by transmuting `&Secret`), so
`sign_recoverable` consumes `Secret` directly. -/
structure Capability where
  Msg : Type
  RecSig : Type
  StdSig : Type
  PubKey : Type
  message_from_slice : Bytes 32 → Except SecpError Msg
  sign_recoverable : Msg → Secret → Except SecpError RecSig
  serialize_compact : RecSig → RecoveryId × Bytes 64
  from_compact : Bytes 64 → RecoveryId → Except SecpError RecSig
  to_standard : RecSig → StdSig
  public_from_slice : Bytes 65 → Except SecpError PubKey
  verify : Msg → StdSig → PubKey → Except SecpError Unit

/-- `pub fn sign(secret: &Secret, message: &[u8; 32]) -> Result<Signature, Error>`.
Each `try!` is expanded into its match; the tuple returned by
`serialize_compact` is consumed by projection; the struct update of the
default signature writes all three fields (`copy_from_slice` into `r` and `s`,
assignment of the cast recovery id to `v`). -/
def sign (C : Capability) (secret : Secret) (message : Bytes 32) :
    Except Error Signature :=
  match C.message_from_slice message with
  | .error e => .error (Error.fromSecp e)
  | .ok msg =>
    match C.sign_recoverable msg secret with
    | .error e => .error (Error.fromSecp e)
    | .ok s =>
      let rec_id := (C.serialize_compact s).1
      let data := (C.serialize_compact s).2
      .ok { r := fun i => data ⟨i.val, by have := i.isLt; omega⟩
            s := fun i => data ⟨i.val + 32, by have := i.isLt; omega⟩
            v := i32_as_u8 (RecoveryId.to_i32 rec_id) }

/-- The local `pdata` construction in `verify`: `let mut temp = [4u8; 65];
(&mut temp[1..65]).copy_from_slice(public);` — byte 0 keeps the 0x04 tag, the
64 public-key bytes fill offsets 1..65. -/
def pubData (public : Public) : Bytes 65 := fun i =>
  if h : i.val = 0 then 4
  else public ⟨i.val - 1, by have := i.isLt; omega⟩

/-- `pub fn verify(public: &Public, signature: &Signature, message: &[u8; 32])
-> Result<bool, Error>`.  The `try!`s fire in source order: recovery id
(`RecoveryId::from_i32(signature[64] as i32)`), then
`RecoverableSignature::from_compact`, then `PublicKey::from_slice` on the
tagged `pdata`, then `Message::from_slice`, and finally the capability's
verification call whose `IncorrectSignature` outcome maps to `Ok(false)`. -/
def verify (C : Capability) (public : Public) (signature : Signature)
    (message : Bytes 32) : Except Error Bool :=
  match RecoveryId.from_i32 (byte64 signature : Int) with
  | .error e => .error (Error.fromSecp e)
  | .ok recId =>
    match C.from_compact (rsBytes signature) recId with
    | .error e => .error (Error.fromSecp e)
    | .ok rsig =>
      let sig := C.to_standard rsig
      match C.public_from_slice (pubData public) with
      | .error e => .error (Error.fromSecp e)
      | .ok publ =>
        match C.message_from_slice message with
        | .error e => .error (Error.fromSecp e)
        | .ok msg =>
          match C.verify msg sig publ with
          | .ok _ => .ok true
          | .error SecpError.IncorrectSignature => .ok false
          | .error x => .error (Error.fromSecp x)

/-! ### Helper lemmas about the codec -/

/-- `toBytes` at an index below 32 reads the `r` field. -/
theorem Signature.toBytes_lo (sig : Signature) (i : Fin 65) (h : i.val < 32) :
    sig.toBytes i = sig.r ⟨i.val, h⟩ := by
  simp [Signature.toBytes, h]

/-- `toBytes` at an index in 32..64 reads the `s` field. -/
theorem Signature.toBytes_mid (sig : Signature) (i : Fin 65) (h1 : ¬ i.val < 32)
    (h2 : i.val < 64) : sig.toBytes i = sig.s ⟨i.val - 32, by omega⟩ := by
  simp [Signature.toBytes, h1, h2]

/-- `toBytes` at index 64 reads the `v` field. -/
theorem Signature.toBytes_hi (sig : Signature) (i : Fin 65) (h : ¬ i.val < 64) :
    sig.toBytes i = sig.v := by
  simp [Signature.toBytes, h, show ¬ i.val < 32 by omega]

/-- Byte 64 of the `Deref` view is the `v` field. -/
theorem byte64_eq_v (sig : Signature) : byte64 sig = sig.v := rfl

/-- The `&signature[0..64]` slice of a signature built from a 64-byte compact
array is that array again. -/
theorem rsBytes_mk (data : Bytes 64) (v : Byte) :
    rsBytes { r := fun i => data ⟨i.val, by have := i.isLt; omega⟩
              s := fun i => data ⟨i.val + 32, by have := i.isLt; omega⟩
              v := v } = data := by
  funext i
  by_cases h : i.val < 32
  · rw [rsBytes, Signature.deref, Signature.toBytes_lo _ _ h]
  · have h2 : i.val < 64 := i.isLt
    rw [rsBytes, Signature.deref, Signature.toBytes_mid _ _ h h2]
    exact congrArg data (Fin.ext (show i.val - 32 + 32 = i.val by omega))

/-- Two signatures with equal `r`, `s` and `v` fields are equal. -/
theorem Signature.ext_fields {a b : Signature} (hr : a.r = b.r) (hs : a.s = b.s)
    (hv : a.v = b.v) : a = b := by
  cases a; cases b; simp_all

/-! ### Claim theorems: the codec -/

/-- C2: the codec round trip is the identity in both directions — for every
65-byte array `b`, `to_bytes (from_bytes b) = b`, and for every `Signature`
`s`, `from_bytes (to_bytes s)` has the same `r`, `s` and `v` fields as `s`. -/
theorem codec_roundtrip :
    (∀ b : Bytes 65, (Signature.fromBytes b).toBytes = b) ∧
    (∀ sig : Signature, Signature.fromBytes sig.toBytes = sig) := by
  constructor
  · intro b
    funext i
    by_cases h : i.val < 32
    · rw [Signature.toBytes_lo _ _ h]
      exact congrArg b (Fin.ext rfl)
    · by_cases h2 : i.val < 64
      · rw [Signature.toBytes_mid _ _ h h2]
        exact congrArg b (Fin.ext (show i.val - 32 + 32 = i.val by omega))
      · rw [Signature.toBytes_hi _ _ h2]
        exact congrArg b (Fin.ext (show 64 = i.val by omega))
  · intro sig
    apply Signature.ext_fields
    · funext i
      have h : (i.val : Nat) < 32 := i.isLt
      show sig.toBytes ⟨i.val, by omega⟩ = sig.r i
      rw [Signature.toBytes_lo _ _ h]
    · funext i
      have h : (i.val : Nat) < 32 := i.isLt
      show sig.toBytes ⟨i.val + 32, by omega⟩ = sig.s i
      rw [Signature.toBytes_mid sig ⟨i.val + 32, by omega⟩
        (show ¬ i.val + 32 < 32 by omega) (show i.val + 32 < 64 by omega)]
      exact congrArg sig.s (Fin.ext (show i.val + 32 - 32 = i.val by omega))
    · show sig.toBytes ⟨64, by omega⟩ = sig.v
      rw [Signature.toBytes_hi sig ⟨64, by omega⟩ (show ¬ 64 < 64 by omega)]

/-- C3: the structured view and the flat 65-byte view denote the same bytes —
`from_bytes` reads `r` from bytes 0..32, `s` from bytes 32..64 and `v` from
byte 64, and byte `i` of the dereferenced 65-byte view of any signature is
`r[i]` for `i < 32`, `s[i-32]` for `32 ≤ i < 64`, and `v` for `i = 64`. -/
theorem structured_flat_view_agree :
    (∀ (b : Bytes 65) (i : Fin 32),
      (Signature.fromBytes b).r i = b ⟨i.val, by have := i.isLt; omega⟩) ∧
    (∀ (b : Bytes 65) (i : Fin 32),
      (Signature.fromBytes b).s i = b ⟨i.val + 32, by have := i.isLt; omega⟩) ∧
    (∀ b : Bytes 65, (Signature.fromBytes b).v = b ⟨64, by omega⟩) ∧
    (∀ (sig : Signature) (i : Fin 65),
      sig.deref i =
        if h : i.val < 32 then sig.r ⟨i.val, h⟩
        else if h2 : i.val < 64 then sig.s ⟨i.val - 32, by omega⟩
        else sig.v) :=
  ⟨fun _ _ => rfl, fun _ _ => rfl, fun _ => rfl, fun _ _ => rfl⟩

/-! ### Claim theorems: verify -/

/-- C6: `verify` is total — for every capability, public key, signature
(including arbitrary byte patterns) and digest it returns `Ok(true)`,
`Ok(false)` or a typed error; there is no other outcome (the embedding is a
total function, mirroring the absence of panicking operations in the source:
every slice index is statically in bounds and every fallible call is matched).
-/
theorem verify_total (C : Capability) (public : Public) (sig : Signature)
    (d : Bytes 32) :
    verify C public sig d = .ok true ∨ verify C public sig d = .ok false ∨
      ∃ e, verify C public sig d = .error e := by
  cases h : verify C public sig d with
  | ok b => cases b
            · exact Or.inr (Or.inl rfl)
            · exact Or.inl rfl
  | error e => exact Or.inr (Or.inr ⟨e, rfl⟩)

/-! ### Step lemmas for `verify` -/

/-- If the recovery-id check fails, `verify` propagates its error. -/
theorem verify_recid_error (C : Capability) (pub : Public) (sig : Signature)
    (d : Bytes 32) (e : SecpError)
    (h : RecoveryId.from_i32 (byte64 sig : Int) = .error e) :
    verify C pub sig d = .error (Error.fromSecp e) := by
  simp only [verify, h]

/-- If the recovery id parses but `from_compact` fails, `verify` propagates
that error. -/
theorem verify_from_compact_error (C : Capability) (pub : Public)
    (sig : Signature) (d : Bytes 32) (recId : RecoveryId) (e : SecpError)
    (h1 : RecoveryId.from_i32 (byte64 sig : Int) = .ok recId)
    (h2 : C.from_compact (rsBytes sig) recId = .error e) :
    verify C pub sig d = .error (Error.fromSecp e) := by
  simp only [verify, h1, h2]

/-- If the signature parses but the tagged public key does not, `verify`
propagates that error. -/
theorem verify_pubkey_error (C : Capability) (pub : Public) (sig : Signature)
    (d : Bytes 32) (recId : RecoveryId) (rsig : C.RecSig) (e : SecpError)
    (h1 : RecoveryId.from_i32 (byte64 sig : Int) = .ok recId)
    (h2 : C.from_compact (rsBytes sig) recId = .ok rsig)
    (h3 : C.public_from_slice (pubData pub) = .error e) :
    verify C pub sig d = .error (Error.fromSecp e) := by
  simp only [verify, h1, h2, h3]

/-- If everything up to the digest parses but `Message::from_slice` fails,
`verify` propagates that error. -/
theorem verify_msg_error (C : Capability) (pub : Public) (sig : Signature)
    (d : Bytes 32) (recId : RecoveryId) (rsig : C.RecSig) (pk : C.PubKey)
    (e : SecpError)
    (h1 : RecoveryId.from_i32 (byte64 sig : Int) = .ok recId)
    (h2 : C.from_compact (rsBytes sig) recId = .ok rsig)
    (h3 : C.public_from_slice (pubData pub) = .ok pk)
    (h4 : C.message_from_slice d = .error e) :
    verify C pub sig d = .error (Error.fromSecp e) := by
  simp only [verify, h1, h2, h3, h4]

/-- When all four parsing steps succeed, `verify` is the mapping of the
capability's final verification result. -/
theorem verify_unfolded (C : Capability) (pub : Public) (sig : Signature)
    (d : Bytes 32) (recId : RecoveryId) (rsig : C.RecSig) (pk : C.PubKey)
    (msg : C.Msg)
    (h1 : RecoveryId.from_i32 (byte64 sig : Int) = .ok recId)
    (h2 : C.from_compact (rsBytes sig) recId = .ok rsig)
    (h3 : C.public_from_slice (pubData pub) = .ok pk)
    (h4 : C.message_from_slice d = .ok msg) :
    verify C pub sig d =
      match C.verify msg (C.to_standard rsig) pk with
      | .ok _ => .ok true
      | .error SecpError.IncorrectSignature => .ok false
      | .error x => .error (Error.fromSecp x) := by
  simp only [verify, h1, h2, h3, h4]

/-- A recovery-id byte above 3 is rejected by `RecoveryId::from_i32`. -/
theorem from_i32_reject (v : Byte) (h : 3 < v) :
    RecoveryId.from_i32 (v : Int) = .error SecpError.InvalidRecoveryId := by
  unfold RecoveryId.from_i32
  exact dif_neg fun hc =>
    absurd (show v ≤ 3 by exact_mod_cast hc.2) (not_le.mpr h)

/-- A recovery-id byte at most 3 is accepted back by `RecoveryId::from_i32`. -/
theorem from_i32_val (r : RecoveryId) :
    RecoveryId.from_i32 ((r.val : Byte) : Int) = .ok r := by
  unfold RecoveryId.from_i32
  rw [dif_pos (show (0 : Int) ≤ (r.val : Byte) ∧ ((r.val : Byte) : Int) ≤ 3 by
    have := r.isLt; omega)]
  exact congrArg Except.ok
    (Fin.ext (show (((r.val : Byte) : Int)).toNat = r.val by omega))

/-! ### Claim theorems: verify error handling -/

/-- C4: for every signature whose byte 64 is outside the capability's valid
recovery-id range (0..=3), `verify` returns the distinct invalid-recovery-id
error — never `Ok(true)` or `Ok(false)` — for every capability, public key and
digest. -/
theorem verify_invalid_recid (C : Capability) (pub : Public) (sig : Signature)
    (d : Bytes 32) (h : 3 < byte64 sig) :
    verify C pub sig d = .error (Error.fromSecp SecpError.InvalidRecoveryId) :=
  verify_recid_error C pub sig d SecpError.InvalidRecoveryId
    (from_i32_reject (byte64 sig) h)

/-- C5: `verify` returns `Ok(false)` exactly when all four parsing steps
succeed and the capability's final verification call reports
`IncorrectSignature`; every other failure of the final call is propagated as
an `Err` preserving the capability's error kind, never as `Ok(false)`; and a
failure in any of the four earlier parsing steps (recovery id, compact r/s,
public key, digest) is likewise mapped to an `Err` of that step's error kind —
on a parsing failure `verify` returns neither `Ok(false)` nor `Ok(true)`. -/
theorem verify_result_mapping (C : Capability) (pub : Public) (sig : Signature)
    (d : Bytes 32) :
    (verify C pub sig d = .ok false ↔
      ∃ (recId : RecoveryId) (rsig : C.RecSig) (pk : C.PubKey) (msg : C.Msg),
        RecoveryId.from_i32 (byte64 sig : Int) = .ok recId ∧
        C.from_compact (rsBytes sig) recId = .ok rsig ∧
        C.public_from_slice (pubData pub) = .ok pk ∧
        C.message_from_slice d = .ok msg ∧
        C.verify msg (C.to_standard rsig) pk =
          .error SecpError.IncorrectSignature) ∧
    (∀ (recId : RecoveryId) (rsig : C.RecSig) (pk : C.PubKey) (msg : C.Msg)
        (x : SecpError),
        RecoveryId.from_i32 (byte64 sig : Int) = .ok recId →
        C.from_compact (rsBytes sig) recId = .ok rsig →
        C.public_from_slice (pubData pub) = .ok pk →
        C.message_from_slice d = .ok msg →
        C.verify msg (C.to_standard rsig) pk = .error x →
        x ≠ SecpError.IncorrectSignature →
        verify C pub sig d = .error (Error.fromSecp x)) ∧
    (∀ e : SecpError,
        RecoveryId.from_i32 (byte64 sig : Int) = .error e →
        verify C pub sig d = .error (Error.fromSecp e)) ∧
    (∀ (recId : RecoveryId) (e : SecpError),
        RecoveryId.from_i32 (byte64 sig : Int) = .ok recId →
        C.from_compact (rsBytes sig) recId = .error e →
        verify C pub sig d = .error (Error.fromSecp e)) ∧
    (∀ (recId : RecoveryId) (rsig : C.RecSig) (e : SecpError),
        RecoveryId.from_i32 (byte64 sig : Int) = .ok recId →
        C.from_compact (rsBytes sig) recId = .ok rsig →
        C.public_from_slice (pubData pub) = .error e →
        verify C pub sig d = .error (Error.fromSecp e)) ∧
    (∀ (recId : RecoveryId) (rsig : C.RecSig) (pk : C.PubKey) (e : SecpError),
        RecoveryId.from_i32 (byte64 sig : Int) = .ok recId →
        C.from_compact (rsBytes sig) recId = .ok rsig →
        C.public_from_slice (pubData pub) = .ok pk →
        C.message_from_slice d = .error e →
        verify C pub sig d = .error (Error.fromSecp e)) := by
  refine ⟨?_, ?_, ?_, ?_, ?_, ?_⟩
  · constructor
    · intro h
      cases h1 : RecoveryId.from_i32 (byte64 sig : Int) with
      | error e => rw [verify_recid_error C pub sig d e h1] at h; simp at h
      | ok recId =>
        cases h2 : C.from_compact (rsBytes sig) recId with
        | error e =>
          rw [verify_from_compact_error C pub sig d recId e h1 h2] at h
          simp at h
        | ok rsig =>
          cases h3 : C.public_from_slice (pubData pub) with
          | error e =>
            rw [verify_pubkey_error C pub sig d recId rsig e h1 h2 h3] at h
            simp at h
          | ok pk =>
            cases h4 : C.message_from_slice d with
            | error e =>
              rw [verify_msg_error C pub sig d recId rsig pk e h1 h2 h3 h4] at h
              simp at h
            | ok msg =>
              rw [verify_unfolded C pub sig d recId rsig pk msg h1 h2 h3 h4] at h
              cases h5 : C.verify msg (C.to_standard rsig) pk with
              | ok u => rw [h5] at h; simp at h
              | error x =>
                rw [h5] at h
                cases x <;>
                  first
                  | exact ⟨recId, rsig, pk, msg, rfl, h2, rfl, rfl, h5⟩
                  | simp at h
    · rintro ⟨recId, rsig, pk, msg, h1, h2, h3, h4, h5⟩
      rw [verify_unfolded C pub sig d recId rsig pk msg h1 h2 h3 h4, h5]
  · intro recId rsig pk msg x h1 h2 h3 h4 h5 hx
    rw [verify_unfolded C pub sig d recId rsig pk msg h1 h2 h3 h4, h5]
    cases x <;> first | exact absurd rfl hx | rfl
  · intro e h1
    exact verify_recid_error C pub sig d e h1
  · intro recId e h1 h2
    exact verify_from_compact_error C pub sig d recId e h1 h2
  · intro recId rsig e h1 h2 h3
    exact verify_pubkey_error C pub sig d recId rsig e h1 h2 h3
  · intro recId rsig pk e h1 h2 h3 h4
    exact verify_msg_error C pub sig d recId rsig pk e h1 h2 h3 h4

/-- C10: `verify` checks its inputs in source order — recovery id first, then
the compact r/s bytes, then the public-key decoding, then the digest — so with
several malformed inputs the error returned is the earliest check's; in
particular an out-of-range recovery id yields the invalid-recovery-id error no
matter what the other inputs are. -/
theorem verify_error_precedence (C : Capability) (pub : Public)
    (sig : Signature) (d : Bytes 32) :
    (3 < byte64 sig →
      verify C pub sig d = .error (Error.fromSecp SecpError.InvalidRecoveryId)) ∧
    (∀ (recId : RecoveryId) (e : SecpError),
      RecoveryId.from_i32 (byte64 sig : Int) = .ok recId →
      C.from_compact (rsBytes sig) recId = .error e →
      verify C pub sig d = .error (Error.fromSecp e)) ∧
    (∀ (recId : RecoveryId) (rsig : C.RecSig) (e : SecpError),
      RecoveryId.from_i32 (byte64 sig : Int) = .ok recId →
      C.from_compact (rsBytes sig) recId = .ok rsig →
      C.public_from_slice (pubData pub) = .error e →
      verify C pub sig d = .error (Error.fromSecp e)) ∧
    (∀ (recId : RecoveryId) (rsig : C.RecSig) (pk : C.PubKey) (e : SecpError),
      RecoveryId.from_i32 (byte64 sig : Int) = .ok recId →
      C.from_compact (rsBytes sig) recId = .ok rsig →
      C.public_from_slice (pubData pub) = .ok pk →
      C.message_from_slice d = .error e →
      verify C pub sig d = .error (Error.fromSecp e)) := by
  refine ⟨?_, ?_, ?_, ?_⟩
  · intro h
    exact verify_recid_error C pub sig d SecpError.InvalidRecoveryId
      (from_i32_reject (byte64 sig) h)
  · intro recId e h1 h2
    exact verify_from_compact_error C pub sig d recId e h1 h2
  · intro recId rsig e h1 h2 h3
    exact verify_pubkey_error C pub sig d recId rsig e h1 h2 h3
  · intro recId rsig pk e h1 h2 h3 h4
    exact verify_msg_error C pub sig d recId rsig pk e h1 h2 h3 h4

/-! ### Step lemmas for `sign` -/

/-- The `rec_id.to_i32() as u8` cast is the identity on a recovery id. -/
theorem i32_as_u8_of_recid (r : RecoveryId) :
    i32_as_u8 (RecoveryId.to_i32 r) = r.val := by
  unfold i32_as_u8 RecoveryId.to_i32
  have h1 : (0 : Int) ≤ (r.val : Int) := Int.natCast_nonneg _
  have h2 : (r.val : Int) < 256 := by
    have h3 : r.val < 256 := Nat.lt_trans r.isLt (by norm_num)
    exact_mod_cast h3
  rw [Int.emod_eq_of_lt h1 h2]
  exact Int.toNat_natCast r.val

/-- Inversion of a successful `sign`: the two capability calls succeeded and
the result is the serialized compact form laid out into the signature. -/
theorem sign_ok_inv (C : Capability) (secret : Secret) (d : Bytes 32)
    (sig : Signature) (h : sign C secret d = .ok sig) :
    ∃ (msg : C.Msg) (s : C.RecSig),
      C.message_from_slice d = .ok msg ∧
      C.sign_recoverable msg secret = .ok s ∧
      sig = { r := fun i => (C.serialize_compact s).2 ⟨i.val, by have := i.isLt; omega⟩
              s := fun i => (C.serialize_compact s).2 ⟨i.val + 32, by have := i.isLt; omega⟩
              v := i32_as_u8 (RecoveryId.to_i32 (C.serialize_compact s).1) } := by
  unfold sign at h
  cases h1 : C.message_from_slice d with
  | error e => rw [h1] at h; simp at h
  | ok msg =>
    rw [h1] at h
    simp only at h
    cases h2 : C.sign_recoverable msg secret with
    | error e => rw [h2] at h; simp at h
    | ok s =>
      rw [h2] at h
      simp only [Except.ok.injEq] at h
      exact ⟨msg, s, rfl, h2, h.symm⟩

/-! ### Claim theorems: sign -/

/-- C7: on every successful call, `sign` copies the capability's compact
serialization into the result — `r` is bytes 0..32 of the compact array, `s`
is bytes 32..64, and `v` is the recovery id as a small integer, with no other
transformation. -/
theorem sign_copies_compact (C : Capability) (secret : Secret) (d : Bytes 32)
    (msg : C.Msg) (s : C.RecSig)
    (h1 : C.message_from_slice d = .ok msg)
    (h2 : C.sign_recoverable msg secret = .ok s) :
    sign C secret d = .ok
      { r := fun i => (C.serialize_compact s).2 ⟨i.val, by have := i.isLt; omega⟩
        s := fun i => (C.serialize_compact s).2 ⟨i.val + 32, by have := i.isLt; omega⟩
        v := ((C.serialize_compact s).1.val : Byte) } := by
  unfold sign
  rw [h1]
  simp only
  rw [h2]
  simp only [Except.ok.injEq]
  refine Signature.ext_fields rfl rfl ?_
  exact i32_as_u8_of_recid (C.serialize_compact s).1

/-- C9: the `v` field of every signature returned by a successful `sign` is in
the range 0..=3. -/
theorem sign_v_in_range (C : Capability) (secret : Secret) (d : Bytes 32)
    (sig : Signature) (h : sign C secret d = .ok sig) : sig.v ≤ 3 := by
  obtain ⟨msg, s, h1, h2, hsig⟩ := sign_ok_inv C secret d sig h
  rw [hsig]
  show i32_as_u8 (RecoveryId.to_i32 (C.serialize_compact s).1) ≤ 3
  rw [i32_as_u8_of_recid]
  exact Nat.le_of_lt_succ (C.serialize_compact s).1.isLt

/-! ### Claim theorems: round trip and public-key encoding -/

/-- C8: the tagged 65-byte public-key encoding `verify` passes to the
capability has byte 0 equal to 0x04 and bytes 1..65 equal, byte for byte, to
the 64-byte `Public` input.  (`pubData` is a function of the `Public` value
alone — `verify` applies it to `public` only — so the encoding cannot depend
on the signature's recovery id or any other signature byte.) -/
theorem pubkey_tagged_encoding (public : Public) :
    pubData public ⟨0, by omega⟩ = 4 ∧
    ∀ i : Fin 64,
      pubData public ⟨i.val + 1, by have := i.isLt; omega⟩ = public i := by
  constructor
  · rfl
  · intro i
    unfold pubData
    rw [dif_neg (show ¬ (⟨i.val + 1, by have := i.isLt; omega⟩ : Fin 65).val = 0
      by simp)]
    exact congrArg public (Fin.ext (by simp))

/-- C1: for every capability whose compact serialization round-trips, every
keypair the capability accepts (the tagged public key parses, and a signature
freshly produced for `d` under `secret` verifies against it), and every
32-byte digest `d`: if `sign` succeeds with `sig`, then `verify` on `sig`
returns `Ok(true)`. -/
theorem sign_verify_roundtrip (C : Capability)
    (hrt : ∀ rsig : C.RecSig,
      C.from_compact (C.serialize_compact rsig).2 (C.serialize_compact rsig).1 =
        .ok rsig)
    (secret : Secret) (public : Public) (d : Bytes 32)
    (pk : C.PubKey) (hpk : C.public_from_slice (pubData public) = .ok pk)
    (hvk : ∀ (msg : C.Msg) (rsig : C.RecSig),
      C.message_from_slice d = .ok msg →
      C.sign_recoverable msg secret = .ok rsig →
      ∃ u, C.verify msg (C.to_standard rsig) pk = .ok u)
    (sig : Signature) (hs : sign C secret d = .ok sig) :
    verify C public sig d = .ok true := by
  obtain ⟨msg, s, h1, h2, hsig⟩ := sign_ok_inv C secret d sig hs
  obtain ⟨u, hv⟩ := hvk msg s h1 h2
  subst hsig
  rw [verify_unfolded C public _ d (C.serialize_compact s).1 s pk msg ?e1 ?e2
    hpk h1, hv]
  case e1 =>
    have hb : byte64
        { r := fun i => (C.serialize_compact s).2 ⟨i.val, by have := i.isLt; omega⟩
          s := fun i => (C.serialize_compact s).2 ⟨i.val + 32, by have := i.isLt; omega⟩
          v := i32_as_u8 (RecoveryId.to_i32 (C.serialize_compact s).1) } =
        ((C.serialize_compact s).1.val : Byte) := by
      rw [byte64_eq_v]
      exact i32_as_u8_of_recid (C.serialize_compact s).1
    rw [hb]
    exact from_i32_val (C.serialize_compact s).1
  case e2 =>
    rw [rsBytes_mk]
    exact hrt s

/-! ### Concrete capabilities and inputs for the witnesses -/

/-- An all-zero 32-byte digest. -/
def zeros32 : Bytes 32 := fun _ => 0

/-- An all-zero 64-byte public key value. -/
def pub0 : Public := fun _ => 0

/-- The 32-byte digest of value 0x01 repeated. -/
def ones32 : Bytes 32 := fun _ => 1

/-- A concrete capability on which every operation succeeds: messages are the
raw digest and a recoverable signature is its (recovery id, compact bytes)
pair, so compact serialization round-trips. -/
def okCap : Capability where
  Msg := Bytes 32
  RecSig := RecoveryId × Bytes 64
  StdSig := RecoveryId × Bytes 64
  PubKey := Bytes 65
  message_from_slice := fun m => .ok m
  sign_recoverable := fun _ _ => .ok (⟨1, by omega⟩, fun i => (i.val : Byte))
  serialize_compact := fun s => s
  from_compact := fun data r => .ok (r, data)
  to_standard := fun s => s
  public_from_slice := fun p => .ok p
  verify := fun _ _ _ => .ok ()

/-- A concrete capability on which every fallible operation fails, each with
its own error kind. -/
def badCap : Capability where
  Msg := Unit
  RecSig := Unit
  StdSig := Unit
  PubKey := Unit
  message_from_slice := fun _ => .error SecpError.InvalidMessage
  sign_recoverable := fun _ _ => .error SecpError.InvalidSecretKey
  serialize_compact := fun _ => (⟨0, by omega⟩, fun _ => 0)
  from_compact := fun _ _ => .error SecpError.InvalidSignature
  to_standard := fun s => s
  public_from_slice := fun _ => .error SecpError.InvalidPublicKey
  verify := fun _ _ _ => .error SecpError.IncorrectSignature

/-- Like `badCap` but the compact signature parses. -/
def badPubCap : Capability :=
  { badCap with from_compact := fun _ _ => .ok () }

/-- Like `badCap` but the compact signature and public key parse. -/
def badMsgCap : Capability :=
  { badCap with
    from_compact := fun _ _ => .ok ()
    public_from_slice := fun _ => .ok () }

/-- All parsing succeeds and the final verification call reports a signature
mismatch. -/
def mismatchCap : Capability :=
  { badCap with
    message_from_slice := fun _ => .ok ()
    from_compact := fun _ _ => .ok ()
    public_from_slice := fun _ => .ok () }

/-- All parsing succeeds and the final verification call fails with an error
other than a signature mismatch. -/
def failCap : Capability :=
  { mismatchCap with verify := fun _ _ _ => .error SecpError.InvalidNonce }

/-- The signature `okCap` produces for any digest. -/
def sig1 : Signature :=
  { r := fun i => (i.val : Byte), s := fun i => (i.val + 32 : Byte), v := 1 }

/-- An otherwise-zero signature with recovery-id byte 4 (out of range). -/
def sigV4 : Signature := { r := fun _ => 0, s := fun _ => 0, v := 4 }

/-- An otherwise-zero signature with recovery-id byte 5 (out of range). -/
def sigV5 : Signature := { r := fun _ => 0, s := fun _ => 0, v := 5 }

/-! ### Witnesses -/

/-- Witness for C1 at a concrete capability, keypair and digest. -/
theorem sign_verify_roundtrip_witness :
    verify okCap pub0 sig1 zeros32 = .ok true :=
  sign_verify_roundtrip okCap (fun _ => rfl) zeros32 pub0 zeros32
    (pubData pub0) rfl (fun _ _ _ _ => ⟨(), rfl⟩) sig1 rfl

/-- Witness for C4: an out-of-range recovery-id byte at a concrete input. -/
theorem verify_invalid_recid_witness :
    3 < byte64 sigV4 ∧
      verify okCap pub0 sigV4 zeros32 =
        .error (Error.fromSecp SecpError.InvalidRecoveryId) :=
  ⟨by decide, verify_invalid_recid okCap pub0 sigV4 zeros32 (by decide)⟩

/-- Witness for C5: a reported mismatch maps to `Ok(false)`, a different
final-call failure maps to the corresponding typed error, and a failure in
each of the four earlier parsing steps maps to that step's typed error. -/
theorem verify_result_mapping_witness :
    verify mismatchCap pub0 Signature.default zeros32 = .ok false ∧
    verify failCap pub0 Signature.default zeros32 =
      .error (Error.fromSecp SecpError.InvalidNonce) ∧
    verify badCap pub0 sigV5 ones32 =
      .error (Error.fromSecp SecpError.InvalidRecoveryId) ∧
    verify badCap pub0 Signature.default ones32 =
      .error (Error.fromSecp SecpError.InvalidSignature) ∧
    verify badPubCap pub0 Signature.default ones32 =
      .error (Error.fromSecp SecpError.InvalidPublicKey) ∧
    verify badMsgCap pub0 Signature.default ones32 =
      .error (Error.fromSecp SecpError.InvalidMessage) := by
  refine ⟨?_, ?_, ?_, ?_, ?_, ?_⟩
  · exact (verify_result_mapping mismatchCap pub0 Signature.default zeros32).1.mpr
      ⟨⟨0, by omega⟩, (), (), (), rfl, rfl, rfl, rfl, rfl⟩
  · exact (verify_result_mapping failCap pub0 Signature.default zeros32).2.1
      ⟨0, by omega⟩ () () () SecpError.InvalidNonce rfl rfl rfl rfl rfl
      (by decide)
  · exact (verify_result_mapping badCap pub0 sigV5 ones32).2.2.1
      SecpError.InvalidRecoveryId rfl
  · exact (verify_result_mapping badCap pub0 Signature.default ones32).2.2.2.1
      ⟨0, by omega⟩ SecpError.InvalidSignature rfl rfl
  · exact (verify_result_mapping badPubCap pub0 Signature.default ones32).2.2.2.2.1
      ⟨0, by omega⟩ () SecpError.InvalidPublicKey rfl rfl rfl
  · exact (verify_result_mapping badMsgCap pub0 Signature.default ones32).2.2.2.2.2
      ⟨0, by omega⟩ () () SecpError.InvalidMessage rfl rfl rfl rfl

/-- Witness for C7 at a concrete capability, secret and digest. -/
theorem sign_copies_compact_witness :
    sign okCap zeros32 zeros32 = .ok
      { r := fun i => (okCap.serialize_compact
          (⟨1, by omega⟩, fun j => (j.val : Byte))).2 ⟨i.val, by have := i.isLt; omega⟩
        s := fun i => (okCap.serialize_compact
          (⟨1, by omega⟩, fun j => (j.val : Byte))).2 ⟨i.val + 32, by have := i.isLt; omega⟩
        v := ((okCap.serialize_compact
          (⟨1, by omega⟩, fun j => (j.val : Byte))).1.val : Byte) } :=
  sign_copies_compact okCap zeros32 zeros32 zeros32
    (⟨1, by omega⟩, fun j => (j.val : Byte)) rfl rfl

/-- Witness for C9: the concrete signature produced by `okCap` has `v ≤ 3`. -/
theorem sign_v_in_range_witness :
    sign okCap zeros32 zeros32 = .ok sig1 ∧ sig1.v ≤ 3 :=
  ⟨rfl, sign_v_in_range okCap zeros32 zeros32 sig1 rfl⟩

/-- Witness for C10: on a capability where every check would fail, the error
returned is the earliest failing check's, for each prefix of passing checks. -/
theorem verify_error_precedence_witness :
    verify badCap pub0 sigV4 zeros32 =
      .error (Error.fromSecp SecpError.InvalidRecoveryId) ∧
    verify badCap pub0 Signature.default zeros32 =
      .error (Error.fromSecp SecpError.InvalidSignature) ∧
    verify badPubCap pub0 Signature.default zeros32 =
      .error (Error.fromSecp SecpError.InvalidPublicKey) ∧
    verify badMsgCap pub0 Signature.default zeros32 =
      .error (Error.fromSecp SecpError.InvalidMessage) := by
  refine ⟨?_, ?_, ?_, ?_⟩
  · exact (verify_error_precedence badCap pub0 sigV4 zeros32).1 (by decide)
  · exact (verify_error_precedence badCap pub0 Signature.default zeros32).2.1
      ⟨0, by omega⟩ SecpError.InvalidSignature rfl rfl
  · exact (verify_error_precedence badPubCap pub0 Signature.default zeros32).2.2.1
      ⟨0, by omega⟩ () SecpError.InvalidPublicKey rfl rfl rfl
  · exact (verify_error_precedence badMsgCap pub0 Signature.default zeros32).2.2.2
      ⟨0, by omega⟩ () () SecpError.InvalidMessage rfl rfl rfl rfl

end Ethkey
